import Mathlib

/-!
Verification of the crawl orchestrator of the pepites-tech scraper.

This file gives a shallow embedding of `src/scraper.py`
(`PepitesScraper.scrape`, `PepitesScraper.scrape_all_categories`,
`PepitesScraper.fetch_categories`, the `fetch_detail` merge),
`src/scraper_chefs_etablissement.py` (`ChefsEtablissementScraper.scrape`)
and `src/app.py` (`api_export`), and proves the frozen claims about them.

Modelling conventions:
- network fetches are parameters: a listing source is a function from a
  page index (and optionally a category slug) to `Option (List Startup)`;
  `none` models a request that raised an exception (the Python code catches
  it and breaks the loop), `some l` models a page parsed into records `l`;
- the `stop_requested` flag is an oracle `stopAt : Nat → Bool` indexed by
  the number of reads of the flag performed so far; the state carries the
  read counter `t`; each program point that reads `self.stop_requested`
  consumes one index;
- the `ThreadPoolExecutor` detail phase is sequentialised: each submitted
  `fetch_detail` body performs its entry flag read, then the `as_completed`
  bookkeeping performs its flag read; under the monotone (set-once) flag
  discipline of `stop()` this preserves which fetches are dispatched;
- `time.sleep` pacing and the human-readable message strings of progress
  callbacks are not observable by any claim and are omitted: progress
  callbacks are recorded as `(current, total)` pairs;
- the unbounded (`num_pages = 0`) loop is run on explicit fuel since the
  Python loop need not terminate for an arbitrary source.
-/

/-- A startup record as initialised by `PepitesScraper._parse_card`
(`src/scraper.py` lines 122-133): every field defaults to the empty string
(votes to zero). -/
structure Startup where
  nom : String
  description : String
  site_web : String
  categories : String
  votes : Nat
  localisation : String
  detail_url : String
  fondateur : String
  twitter : String
  linkedin : String
deriving DecidableEq, Repr

/-- The enrichment mapping returned by `PepitesScraper.scrape_detail_page`
(`src/scraper.py` lines 179-215): four fields always present (defaulted to
the empty string), plus `site_web` which the Python dict only receives when
found; an absent key and an empty string behave identically under the
truthiness tests of `fetch_detail`, so it is modelled as a string. -/
structure DetailExtra where
  fondateur : String
  twitter : String
  linkedin : String
  localisation : String
  site_web : String
deriving DecidableEq, Repr

/-- The in-place merge performed by both `fetch_detail` closures
(`src/scraper.py` lines 361-365 and 278-282): for the four keys
`fondateur`, `twitter`, `linkedin`, `localisation` a truthy (non-empty)
extra value overwrites; `site_web` is only filled when the record's own
`site_web` is falsy (empty). -/
def mergeDetail (startup : Startup) (extra : DetailExtra) : Startup :=
  let s1 := if extra.fondateur ≠ "" then { startup with fondateur := extra.fondateur } else startup
  let s2 := if extra.twitter ≠ "" then { s1 with twitter := extra.twitter } else s1
  let s3 := if extra.linkedin ≠ "" then { s2 with linkedin := extra.linkedin } else s2
  let s4 := if extra.localisation ≠ "" then { s3 with localisation := extra.localisation } else s3
  if extra.site_web ≠ "" ∧ s4.site_web = "" then { s4 with site_web := extra.site_web } else s4

/-- The dedup identity key of `scrape_all_categories`
(`src/scraper.py` line 256): `s.get("detail_url") or s.get("nom")` —
the detail URL when non-empty (truthy), else the name. -/
def identityKey (s : Startup) : String :=
  if s.detail_url ≠ "" then s.detail_url else s.nom

/-- Observable state of one run of `PepitesScraper.scrape`.
`t` counts reads of `self.stop_requested`; `pagesRequested` and
`detailsRequested` log each network request together with the read index
of the flag check that let it through. -/
structure ScrapeState where
  t : Nat
  allStartups : List Startup
  resultBatches : List (List Startup)
  progressCalls : List (Nat × Nat)
  pagesRequested : List (Nat × Nat)
  detailsRequested : List (Nat × String)
deriving DecidableEq, Repr

def ScrapeState.init : ScrapeState :=
  ⟨0, [], [], [], [], []⟩

/-- The listing loop of `PepitesScraper.scrape` (`src/scraper.py` lines
323-349): check the stop flag, check the bounded-mode page guard, emit
progress, request the page (an exception — `none` — or an empty page breaks
the loop), extend the results, deliver the page as a result batch. -/
def scrapeLoop (stopAt : Nat → Bool) (src : Nat → Option (List Startup))
    (numPages : Nat) : Nat → Nat → ScrapeState → ScrapeState
  | 0, _, st => st
  | fuel + 1, page, st =>
    let rt := st.t
    let st := { st with t := st.t + 1 }
    if stopAt rt then st
    else if numPages ≠ 0 ∧ numPages ≤ page then st
    else
      let st := { st with progressCalls := st.progressCalls ++
        [if numPages = 0 then (page, max (page + 1) 1) else (page, numPages)] }
      let st := { st with pagesRequested := st.pagesRequested ++ [(rt, page)] }
      match src page with
      | none => st
      | some startups =>
        if startups = [] then st
        else
          let st := { st with
            allStartups := st.allStartups ++ startups,
            resultBatches := st.resultBatches ++ [startups] }
          scrapeLoop stopAt src numPages fuel (page + 1) st

/-- The detail phase of `PepitesScraper.scrape` (`src/scraper.py` lines
355-382), sequentialised: for every record (all of `all_startups` is
submitted to the pool) the `fetch_detail` body reads the flag — if set the
phase dispatches nothing further; otherwise a record with a non-empty
`detail_url` is fetched and merged; the `as_completed` bookkeeping then
reads the flag again — if set the phase breaks, otherwise it counts the
completion and emits progress. -/
def scrapeDetailLoop (stopAt : Nat → Bool) (dsrc : String → DetailExtra)
    (total : Nat) : Nat → List Startup → ScrapeState → List Startup × ScrapeState
  | _, [], st => ([], st)
  | done, s :: rest, st =>
    let rt := st.t
    let st := { st with t := st.t + 1 }
    if stopAt rt then (s :: rest, st)
    else
      let s' := if s.detail_url = "" then s else mergeDetail s (dsrc s.detail_url)
      let st := if s.detail_url = "" then st
        else { st with detailsRequested := st.detailsRequested ++ [(rt, s.detail_url)] }
      let rt2 := st.t
      let st := { st with t := st.t + 1 }
      if stopAt rt2 then (s' :: rest, st)
      else
        let st := { st with progressCalls := st.progressCalls ++ [(done + 1, total)] }
        let r := scrapeDetailLoop stopAt dsrc total (done + 1) rest st
        (s' :: r.1, r.2)

/-- The listing loop and detail phase of `PepitesScraper.scrape`
(`src/scraper.py` lines 317-382): the listing loop, then — when details
were requested, some records were collected and the flag read at line 352
is clear — the detail phase. -/
def pepitesScrapeBody (stopAt : Nat → Bool) (src : Nat → Option (List Startup))
    (dsrc : String → DetailExtra) (numPages : Nat) (withDetails : Bool)
    (fuel : Nat) : ScrapeState :=
  let st := scrapeLoop stopAt src numPages fuel 0 ScrapeState.init
  if withDetails ∧ st.allStartups ≠ [] then
    let rt := st.t
    let st := { st with t := st.t + 1 }
    if stopAt rt then st
    else
      let r := scrapeDetailLoop stopAt dsrc st.allStartups.length 0 st.allStartups st
      { r.2 with allStartups := r.1 }
  else st

/-- `PepitesScraper.scrape` (`src/scraper.py` lines 306-387): the body,
then the unconditional final progress call `(1, 1)` of lines 384-385. -/
def pepitesScrape (stopAt : Nat → Bool) (src : Nat → Option (List Startup))
    (dsrc : String → DetailExtra) (numPages : Nat) (withDetails : Bool)
    (fuel : Nat) : ScrapeState :=
  let st := pepitesScrapeBody stopAt src dsrc numPages withDetails fuel
  { st with progressCalls := st.progressCalls ++ [(1, 1)] }

/-- The constantly-clear stop flag: a run during which `stop()` is never
invoked. -/
def noStop : Nat → Bool := fun _ => false

/-- Observable state of one run of `PepitesScraper.scrape_all_categories`.
`seen` is the insertion-ordered dedup dict `detail_url -> startup` of
`src/scraper.py` line 229; pages are logged as (read index, slug, page). -/
structure CatsState where
  t : Nat
  seen : List (String × Startup)
  resultBatches : List (List Startup)
  progressCalls : List (Nat × Nat)
  pagesRequested : List (Nat × String × Nat)
  detailsRequested : List (Nat × String)
deriving DecidableEq, Repr

def CatsState.init : CatsState :=
  ⟨0, [], [], [], [], []⟩

/-- The per-page dedup of `scrape_all_categories` (`src/scraper.py` lines
254-259): walk the page's records in order; a record whose identity key is
not yet in `seen` is inserted there and collected into `new_startups`. -/
def dedupNew (seen : List (String × Startup)) :
    List Startup → List (String × Startup) × List Startup
  | [] => (seen, [])
  | s :: rest =>
    let key := identityKey s
    if (seen.map Prod.fst).contains key then dedupNew seen rest
    else
      let r := dedupNew (seen ++ [(key, s)]) rest
      (r.1, s :: r.2)

/-- The inner page loop of `scrape_all_categories` (`src/scraper.py` lines
245-265): check the flag, request the page (exception or empty page breaks),
dedup against `seen`, deliver the genuinely new records as a batch when
non-empty. -/
def catPageLoop (stopAt : Nat → Bool) (src : String → Nat → Option (List Startup))
    (slug : String) : Nat → Nat → CatsState → CatsState
  | 0, _, st => st
  | fuel + 1, page, st =>
    let rt := st.t
    let st := { st with t := st.t + 1 }
    if stopAt rt then st
    else
      let st := { st with pagesRequested := st.pagesRequested ++ [(rt, slug, page)] }
      match src slug page with
      | none => st
      | some startups =>
        if startups = [] then st
        else
          let r := dedupNew st.seen startups
          let st := { st with
            seen := r.1,
            resultBatches :=
              if r.2 = [] then st.resultBatches else st.resultBatches ++ [r.2] }
          catPageLoop stopAt src slug fuel (page + 1) st

/-- The category loop of `scrape_all_categories` (`src/scraper.py` lines
233-265): for each (index, slug) pair in discovery order, check the flag
(a set flag abandons the remaining categories), emit the category-coordinate
progress call, run the unbounded page loop. -/
def catsLoop (stopAt : Nat → Bool) (src : String → Nat → Option (List Startup))
    (fuel totalCats : Nat) : List (Nat × String) → CatsState → CatsState
  | [], st => st
  | (catIdx, slug) :: rest, st =>
    let rt := st.t
    let st := { st with t := st.t + 1 }
    if stopAt rt then st
    else
      let st := { st with progressCalls := st.progressCalls ++ [(catIdx, totalCats)] }
      let st := catPageLoop stopAt src slug fuel 0 st
      catsLoop stopAt src fuel totalCats rest st

/-- The detail phase of `scrape_all_categories` (`src/scraper.py` lines
267-299), sequentialised like `scrapeDetailLoop`; only records with a
non-empty `detail_url` are submitted to the pool (line 270), the others are
not touched and consume no flag read. -/
def catsDetailLoop (stopAt : Nat → Bool) (dsrc : String → DetailExtra)
    (total : Nat) : Nat → List (String × Startup) → CatsState →
      List (String × Startup) × CatsState
  | _, [], st => ([], st)
  | done, p :: rest, st =>
    if p.2.detail_url = "" then
      let r := catsDetailLoop stopAt dsrc total done rest st
      (p :: r.1, r.2)
    else
      let rt := st.t
      let st := { st with t := st.t + 1 }
      if stopAt rt then (p :: rest, st)
      else
        let st := { st with detailsRequested := st.detailsRequested ++ [(rt, p.2.detail_url)] }
        let s' := mergeDetail p.2 (dsrc p.2.detail_url)
        let rt2 := st.t
        let st := { st with t := st.t + 1 }
        if stopAt rt2 then ((p.1, s') :: rest, st)
        else
          let st := { st with progressCalls := st.progressCalls ++ [(done + 1, total)] }
          let r := catsDetailLoop stopAt dsrc total (done + 1) rest st
          ((p.1, s') :: r.1, r.2)

/-- The category loop and detail phase of `scrape_all_categories`
(`src/scraper.py` lines 229-299): the category loop over the discovered
slugs, then — when details were requested and the flag read at line 268 is
clear — the detail phase over the dedup dict. -/
def scrapeAllCategoriesBody (stopAt : Nat → Bool) (cats : List String)
    (src : String → Nat → Option (List Startup)) (dsrc : String → DetailExtra)
    (withDetails : Bool) (fuel : Nat) : CatsState :=
  let st := catsLoop stopAt src fuel cats.length
    ((List.range cats.length).zip cats) CatsState.init
  if withDetails then
    let rt := st.t
    let st := { st with t := st.t + 1 }
    if stopAt rt then st
    else
      let total := (st.seen.filter (fun p => p.2.detail_url ≠ "")).length
      let r := catsDetailLoop stopAt dsrc total 0 st.seen st
      { r.2 with seen := r.1 }
  else st

/-- `PepitesScraper.scrape_all_categories` (`src/scraper.py` lines 217-304),
parameterised by the discovered category slugs: an empty category list
returns immediately (line 227) with no progress call; otherwise the body
runs, then the unconditional final progress call `(1, 1)` of lines
301-302. -/
def scrapeAllCategories (stopAt : Nat → Bool) (cats : List String)
    (src : String → Nat → Option (List Startup)) (dsrc : String → DetailExtra)
    (withDetails : Bool) (fuel : Nat) : CatsState :=
  if cats = [] then CatsState.init
  else
    let st := scrapeAllCategoriesBody stopAt cats src dsrc withDetails fuel
    { st with progressCalls := st.progressCalls ++ [(1, 1)] }

/-- One category entry as assembled by `fetch_categories`
(`src/scraper.py` lines 69, 77, 95): a display name and an optional count. -/
structure CatInfo where
  name : String
  count : Option Nat
deriving DecidableEq, Repr

/-- Python dict assignment `cats[slug] = info`: replace in place when the
key is present (position preserved), else append. -/
def insertReplace (cats : List (String × CatInfo)) (slug : String)
    (info : CatInfo) : List (String × CatInfo) :=
  if (cats.map Prod.fst).contains slug then
    cats.map (fun p => if p.1 = slug then (slug, info) else p)
  else cats ++ [(slug, info)]

/-- Phase 1 of `fetch_categories` (`src/scraper.py` lines 54-69): the
authoritative sidebar entries `(slug, name, count)` are inserted whenever
the slug is non-empty (`if slug:`). -/
def sidebarPhase (sidebar : List (String × String × Option Nat)) :
    List (String × CatInfo) :=
  sidebar.foldl
    (fun cats e =>
      if e.1 ≠ "" then insertReplace cats e.1 ⟨e.2.1, e.2.2⟩ else cats)
    []

/-- One opportunistic tag insertion (`src/scraper.py` lines 72-77 and
87-95): a `(slug, name)` pair with both components non-empty fills the slug
only when absent, with a null count. -/
def tagInsert (cats : List (String × CatInfo)) (e : String × String) :
    List (String × CatInfo) :=
  if e.1 ≠ "" ∧ ¬(cats.map Prod.fst).contains e.1 ∧ e.2 ≠ "" then
    cats ++ [(e.1, ⟨e.2, none⟩)]
  else cats

/-- `PepitesScraper.fetch_categories` (`src/scraper.py` lines 36-100),
parameterised by the parsed fetch results: sidebar entries, tag links of
the same page, and the tag links of the homepage pages; the final dict is
rebuilt sorted by display name lowercased (line 100). -/
def fetch_categories (sidebar : List (String × String × Option Nat))
    (pageTags : List (String × String)) (homeTags : List (List (String × String))) :
    List (String × CatInfo) :=
  let cats := sidebarPhase sidebar
  let cats := pageTags.foldl tagInsert cats
  let cats := homeTags.foldl (fun cats pg => pg.foldl tagInsert cats) cats
  cats.mergeSort (fun a b => a.2.name.toLower ≤ b.2.name.toLower)

/-- The outcome of `api_export` (`src/app.py` lines 106-129) as observable
by a client: either a rejection message or a produced file with its column
list. -/
structure ExportFile where
  filename : String
  columns : List String
deriving DecidableEq, Repr

/-- The column keys of a startup record dict, in `_parse_card` insertion
order (`src/scraper.py` lines 122-133). -/
def startupColumns : List String :=
  ["nom", "description", "site_web", "categories", "votes",
   "localisation", "detail_url", "fondateur", "twitter", "linkedin"]

/-- `api_export` of `src/app.py` (lines 106-129): an empty result set is
rejected with a no-data error; otherwise the internal `detail_url` column
is dropped and a csv or excel file is produced; any other format token is
rejected. The timestamped file name is parameterised by the clock value. -/
def api_export (results : List Startup) (fmt : String) (timestamp : String) :
    Except String ExportFile :=
  if results = [] then .error "Aucune donnée à exporter."
  else
    let cols := startupColumns.filter (fun c => c ≠ "detail_url")
    if fmt = "csv" then
      .ok ⟨"pepites_" ++ timestamp ++ ".csv", cols⟩
    else if fmt = "excel" then
      .ok ⟨"pepites_" ++ timestamp ++ ".xlsx", cols⟩
    else .error "Format non supporté. Utilisez \x27csv\x27 ou \x27excel\x27."

/-- Page size of the open-data API client (`src/scraper_chefs_etablissement.py`
line 37). -/
def PAGE_SIZE : Nat := 100

/-- Observable state of one run of `ChefsEtablissementScraper.scrape`.
Each API request is logged as (limit, offset, number of results already
collected when the request was issued). -/
structure ChefsState (β : Type) where
  offset : Nat
  results : List β
  progressCalls : List (Nat × Nat)
  requests : List (Nat × Nat × Nat)

/-- The pagination loop of `ChefsEtablissementScraper.scrape`
(`src/scraper_chefs_etablissement.py` lines 101-145): when a budget is set,
stop once it is exhausted and cap the page limit at the remaining budget;
an exception (`none`) or an empty page breaks; each fetched record is parsed
and appended; a short page (fewer records than requested) breaks. -/
def chefsLoop {α β : Type} (api : Nat → Nat → Option (List α)) (parse : α → β)
    (maxRecords total : Nat) : Nat → ChefsState β → ChefsState β
  | 0, st => st
  | fuel + 1, st =>
    let limitBase := PAGE_SIZE
    if maxRecords ≠ 0 ∧ maxRecords ≤ st.results.length then st
    else
      let limit := if maxRecords ≠ 0 then
          min limitBase (maxRecords - st.results.length) else limitBase
      let st := { st with requests := st.requests ++ [(limit, st.offset, st.results.length)] }
      match api limit st.offset with
      | none => st
      | some records =>
        if records.isEmpty then st
        else
          let st := { st with
            results := st.results ++ records.map parse,
            offset := st.offset + records.length }
          let st := { st with progressCalls := st.progressCalls ++ [(st.results.length, total)] }
          if records.length < limit then st
          else chefsLoop api parse maxRecords total fuel st

/-- `ChefsEtablissementScraper.scrape` (`src/scraper_chefs_etablissement.py`
lines 74-150), parameterised by the API (a function from limit and offset
to an optional record page), the record parser `_parse_record`, and the
`count_total` response: the displayed total is capped by the budget, an
initial progress call `(0, total)` is made, the loop runs, and the final
progress call reports `(len(results), len(results))`. -/
def chefsScrape {α β : Type} (api : Nat → Nat → Option (List α)) (parse : α → β)
    (totalCount maxRecords fuel : Nat) : ChefsState β :=
  let total := if maxRecords ≠ 0 ∧ maxRecords < totalCount then maxRecords else totalCount
  let st : ChefsState β := ⟨0, [], [(0, total)], []⟩
  let st := chefsLoop api parse maxRecords total fuel st
  { st with progressCalls := st.progressCalls ++ [(st.results.length, st.results.length)] }

/-- A listing page at which the loop of `scrape` stops: the request raised
(`none`) or the page parsed into zero records. -/
def badPage (src : Nat → Option (List Startup)) (i : Nat) : Bool :=
  match src i with
  | none => true
  | some l => l.isEmpty

/-- The pages the bounded listing loop requests starting from page `p` with
`b` pages of budget left: always page `p` first, then — unless `p` is a
stopping page — the following pages. -/
def boundedReqs (src : Nat → Option (List Startup)) : Nat → Nat → List Nat
  | _, 0 => []
  | p, b + 1 => p :: (if badPage src p then [] else boundedReqs src (p + 1) b)

example :
    (pepitesScrape (fun _ => false)
      (fun p => if p = 0 then some [⟨"a", "", "", "", 0, "", "", "", "", ""⟩] else some [])
      (fun _ => ⟨"", "", "", "", ""⟩) 0 false 5).pagesRequested.map Prod.snd = [0, 1] := by
  decide

example :
    (chefsScrape (fun _limit _offset => some [0, 1]) (fun n => n) 10 1 5).results.length = 2 := by
  decide

/-- C4 (counterexample): the claim "a non-empty detail value always
overwrites the existing field value" fails for the `site_web` field: a
record whose `site_web` is already `"a"` keeps it even though the detail
fetch produced the non-empty value `"b"` (`src/scraper.py` lines 364-365
and 281-282 only fill `site_web` when it is empty). -/
theorem claimC4_counterexample :
    ("b" : String) ≠ "" ∧
    (mergeDetail ⟨"n", "", "a", "", 0, "", "", "", "", ""⟩
      ⟨"", "", "", "", "b"⟩).site_web ≠ "b" := by
  decide

/-- C4 (amended): an empty-string detail value never overwrites any field;
a non-empty detail value always overwrites `fondateur`, `twitter`,
`linkedin` and `localisation`, while a non-empty `site_web` detail value
overwrites only when the record's `site_web` is empty and never replaces a
non-empty `site_web`. -/
theorem claimC4 (s : Startup) (e : DetailExtra) :
    ((e.fondateur = "" → (mergeDetail s e).fondateur = s.fondateur) ∧
     (e.fondateur ≠ "" → (mergeDetail s e).fondateur = e.fondateur)) ∧
    ((e.twitter = "" → (mergeDetail s e).twitter = s.twitter) ∧
     (e.twitter ≠ "" → (mergeDetail s e).twitter = e.twitter)) ∧
    ((e.linkedin = "" → (mergeDetail s e).linkedin = s.linkedin) ∧
     (e.linkedin ≠ "" → (mergeDetail s e).linkedin = e.linkedin)) ∧
    ((e.localisation = "" → (mergeDetail s e).localisation = s.localisation) ∧
     (e.localisation ≠ "" → (mergeDetail s e).localisation = e.localisation)) ∧
    ((e.site_web = "" → (mergeDetail s e).site_web = s.site_web) ∧
     (e.site_web ≠ "" → s.site_web = "" → (mergeDetail s e).site_web = e.site_web) ∧
     (s.site_web ≠ "" → (mergeDetail s e).site_web = s.site_web)) := by
  simp only [mergeDetail]
  split_ifs <;> simp_all

/-- C4 (witness): at a concrete record and extra, a non-empty `fondateur`
overwrites and an empty `twitter` does not. -/
theorem claimC4_witness :
    (mergeDetail ⟨"n", "", "", "", 0, "", "", "old", "tw", ""⟩
      ⟨"F", "", "", "", ""⟩).fondateur = "F" ∧
    (mergeDetail ⟨"n", "", "", "", 0, "", "", "old", "tw", ""⟩
      ⟨"F", "", "", "", ""⟩).twitter = "tw" := by
  have h := claimC4 ⟨"n", "", "", "", 0, "", "", "old", "tw", ""⟩ ⟨"F", "", "", "", ""⟩
  exact ⟨h.1.2 (by decide), h.2.1.1 (by decide)⟩

/-- C9: the export rejects an empty record set with the no-data error and
produces no file, rejects any format token other than csv/excel with an
error and no file, and on success excludes the internal `detail_url`
column from the exported columns. -/
theorem claimC9 (results : List Startup) (fmt ts : String) :
    (results = [] → api_export results fmt ts = .error "Aucune donnée à exporter.") ∧
    (results ≠ [] → fmt ≠ "csv" → fmt ≠ "excel" →
      api_export results fmt ts =
        .error "Format non supporté. Utilisez \x27csv\x27 ou \x27excel\x27.") ∧
    (results ≠ [] → (fmt = "csv" ∨ fmt = "excel") →
      ∃ f, api_export results fmt ts = .ok f ∧ "detail_url" ∉ f.columns ∧
        f.columns = ["nom", "description", "site_web", "categories", "votes",
                     "localisation", "fondateur", "twitter", "linkedin"]) := by
  have hcols : startupColumns.filter (fun c => c ≠ "detail_url") =
      ["nom", "description", "site_web", "categories", "votes",
       "localisation", "fondateur", "twitter", "linkedin"] := by decide
  refine ⟨fun h => by simp [api_export, h], fun h h1 h2 => by simp [api_export, h, h1, h2],
    fun h hf => ?_⟩
  rcases hf with hf | hf <;> subst hf
  · refine ⟨⟨"pepites_" ++ ts ++ ".csv",
      startupColumns.filter (fun c => c ≠ "detail_url")⟩, ?_, by dsimp only; decide, hcols⟩
    unfold api_export
    rw [if_neg h, if_pos rfl]
  · refine ⟨⟨"pepites_" ++ ts ++ ".xlsx",
      startupColumns.filter (fun c => c ≠ "detail_url")⟩, ?_, by dsimp only; decide, hcols⟩
    unfold api_export
    rw [if_neg h]
    have hne : ("excel" : String) ≠ "csv" := by decide
    rw [if_neg hne, if_pos rfl]

/-- C9 (witness): a concrete non-empty export in csv format succeeds
without a `detail_url` column; a concrete empty export is rejected. -/
theorem claimC9_witness :
    (∃ f, api_export [⟨"n", "", "", "", 0, "", "u", "", "", ""⟩] "csv" "t" = .ok f ∧
      "detail_url" ∉ f.columns ∧
      f.columns = ["nom", "description", "site_web", "categories", "votes",
                   "localisation", "fondateur", "twitter", "linkedin"]) ∧
    api_export [] "csv" "t" = .error "Aucune donnée à exporter." := by
  exact ⟨(claimC9 [⟨"n", "", "", "", 0, "", "u", "", "", ""⟩] "csv" "t").2.2
      (by decide) (Or.inl rfl),
    (claimC9 [] "csv" "t").1 rfl⟩

/-- C10 (counterexample): the claim quantifies over every sequence of API
page responses; with `max_records = 1` and an API page that answers a
request for `limit = 1` with two records, the loop appends both and
returns 2 records, exceeding the budget. -/
theorem claimC10_counterexample :
    ¬ ((chefsScrape (fun _limit _offset => some [0, 1]) (fun n : Nat => n)
        10 1 5).results.length ≤ 1) := by
  decide

/-- Budget invariant of the chefs pagination loop: when a positive budget
is set and every API page returns at most the requested limit, the loop
never exceeds the budget, every issued request has its limit capped at
`min(PAGE_SIZE, max_records - len(results))`, and every request is issued
with the budget not yet exhausted. -/
theorem chefsLoop_budget {α β : Type} (api : Nat → Nat → Option (List α))
    (parse : α → β) (maxRecords total : Nat) (hmax : maxRecords ≠ 0)
    (hapi : ∀ l o rs, api l o = some rs → rs.length ≤ l) :
    ∀ fuel (st : ChefsState β), st.results.length ≤ maxRecords →
      (∀ e ∈ st.requests, e.1 = min PAGE_SIZE (maxRecords - e.2.2)) →
      (∀ e ∈ st.requests, e.2.2 < maxRecords) →
      (chefsLoop api parse maxRecords total fuel st).results.length ≤ maxRecords ∧
      (∀ e ∈ (chefsLoop api parse maxRecords total fuel st).requests,
        e.1 = min PAGE_SIZE (maxRecords - e.2.2)) ∧
      (∀ e ∈ (chefsLoop api parse maxRecords total fuel st).requests,
        e.2.2 < maxRecords) := by
  intro fuel
  induction fuel with
  | zero => intro st h1 h2 h3; exact ⟨h1, h2, h3⟩
  | succ fuel ih =>
    intro st h1 h2 h3
    rw [chefsLoop]
    by_cases hguard : maxRecords ≠ 0 ∧ maxRecords ≤ st.results.length
    · rw [if_pos hguard]
      exact ⟨h1, h2, h3⟩
    · have hlt : st.results.length < maxRecords := by
        rcases Nat.lt_or_ge st.results.length maxRecords with h | h
        · exact h
        · exact absurd ⟨hmax, h⟩ hguard
      rw [if_neg hguard, if_pos hmax]
      dsimp only
      have hreq : ∀ e ∈ st.requests ++
          [(min PAGE_SIZE (maxRecords - st.results.length), st.offset, st.results.length)],
          e.1 = min PAGE_SIZE (maxRecords - e.2.2) := by
        intro e he
        rcases List.mem_append.mp he with he | he
        · exact h2 e he
        · simp only [List.mem_singleton] at he
          subst he; rfl
      have hexh : ∀ e ∈ st.requests ++
          [(min PAGE_SIZE (maxRecords - st.results.length), st.offset, st.results.length)],
          e.2.2 < maxRecords := by
        intro e he
        rcases List.mem_append.mp he with he | he
        · exact h3 e he
        · simp only [List.mem_singleton] at he
          subst he
          exact hlt
      cases hsrc : api (min PAGE_SIZE (maxRecords - st.results.length)) st.offset with
      | none =>
        exact ⟨h1, hreq, hexh⟩
      | some records =>
        dsimp only
        have hlen : records.length ≤ min PAGE_SIZE (maxRecords - st.results.length) :=
          hapi _ _ _ hsrc
        have hbound : st.results.length + records.length ≤ maxRecords := by
          have : records.length ≤ maxRecords - st.results.length :=
            le_trans hlen (Nat.min_le_right _ _)
          omega
        by_cases hemp : records.isEmpty = true
        · rw [if_pos hemp]
          exact ⟨h1, hreq, hexh⟩
        · rw [if_neg hemp]
          by_cases hshort : records.length < min PAGE_SIZE (maxRecords - st.results.length)
          · rw [if_pos hshort]
            refine ⟨?_, hreq, hexh⟩
            simpa using hbound
          · rw [if_neg hshort]
            exact ih _ (by simpa using hbound) hreq hexh

/-- Stopping invariant of the chefs pagination loop: whenever the loop
issues a further request, every earlier request had been answered with a
full, non-empty page — equivalently, in the final request log every entry
except the last was answered with `some rs`, `rs ≠ []` and
`limit ≤ rs.length`, so the loop stops at the first failing, empty or
short page. -/
theorem chefsLoop_full {α β : Type} (api : Nat → Nat → Option (List α))
    (parse : α → β) (maxRecords total : Nat) (hmax : maxRecords ≠ 0) :
    ∀ fuel (st : ChefsState β),
      (∀ e ∈ st.requests, ∃ rs, api e.1 e.2.1 = some rs ∧ rs ≠ [] ∧ e.1 ≤ rs.length) →
      ∀ e ∈ (chefsLoop api parse maxRecords total fuel st).requests.dropLast,
        ∃ rs, api e.1 e.2.1 = some rs ∧ rs ≠ [] ∧ e.1 ≤ rs.length := by
  intro fuel
  induction fuel with
  | zero => intro st h e he; exact h e (List.dropLast_subset _ he)
  | succ fuel ih =>
    intro st h
    rw [chefsLoop]
    by_cases hguard : maxRecords ≠ 0 ∧ maxRecords ≤ st.results.length
    · rw [if_pos hguard]
      intro e he
      exact h e (List.dropLast_subset _ he)
    · rw [if_neg hguard, if_pos hmax]
      dsimp only
      cases hsrc : api (min PAGE_SIZE (maxRecords - st.results.length)) st.offset with
      | none =>
        intro e he
        have he2 : e ∈ (st.requests ++ [(min PAGE_SIZE (maxRecords - st.results.length),
            st.offset, st.results.length)]).dropLast := he
        rw [List.dropLast_concat] at he2
        exact h e he2
      | some records =>
        dsimp only
        by_cases hemp : records.isEmpty = true
        · rw [if_pos hemp]
          intro e he
          have he2 : e ∈ (st.requests ++ [(min PAGE_SIZE (maxRecords - st.results.length),
              st.offset, st.results.length)]).dropLast := he
          rw [List.dropLast_concat] at he2
          exact h e he2
        · rw [if_neg hemp]
          by_cases hshort : records.length < min PAGE_SIZE (maxRecords - st.results.length)
          · rw [if_pos hshort]
            intro e he
            have he2 : e ∈ (st.requests ++ [(min PAGE_SIZE (maxRecords - st.results.length),
                st.offset, st.results.length)]).dropLast := he
            rw [List.dropLast_concat] at he2
            exact h e he2
          · rw [if_neg hshort]
            apply ih
            intro e he
            rcases List.mem_append.mp he with he | he
            · exact h e he
            · simp only [List.mem_singleton] at he
              subst he
              exact ⟨records, hsrc, by simpa using hemp, by omega⟩

/-- C10 (amended): for every `max_records > 0` and every sequence of API
page responses in which each page returns at most the requested limit,
`ChefsEtablissementScraper.scrape` returns at most `max_records` records;
each page request's limit is capped at the remaining budget
`min(PAGE_SIZE, max_records - len(results))`; and the loop stops once the
budget is exhausted or a page returns fewer records than requested: every
request is issued with `len(results)` still below `max_records`, and every
request except the last was answered with a full, non-empty page. -/
theorem claimC10 {α β : Type} (api : Nat → Nat → Option (List α)) (parse : α → β)
    (totalCount maxRecords fuel : Nat) (hmax : 0 < maxRecords)
    (hapi : ∀ l o rs, api l o = some rs → rs.length ≤ l) :
    (chefsScrape api parse totalCount maxRecords fuel).results.length ≤ maxRecords ∧
    (∀ e ∈ (chefsScrape api parse totalCount maxRecords fuel).requests,
      e.1 = min PAGE_SIZE (maxRecords - e.2.2)) ∧
    (∀ e ∈ (chefsScrape api parse totalCount maxRecords fuel).requests,
      e.2.2 < maxRecords) ∧
    (∀ e ∈ (chefsScrape api parse totalCount maxRecords fuel).requests.dropLast,
      ∃ rs, api e.1 e.2.1 = some rs ∧ rs ≠ [] ∧ e.1 ≤ rs.length) := by
  have h := chefsLoop_budget api parse maxRecords
    (if maxRecords ≠ 0 ∧ maxRecords < totalCount then maxRecords else totalCount)
    (Nat.pos_iff_ne_zero.mp hmax) hapi fuel
    ⟨0, [], [(0, if maxRecords ≠ 0 ∧ maxRecords < totalCount then maxRecords else totalCount)], []⟩
    (by simp) (by simp) (by simp)
  have hfull := chefsLoop_full api parse maxRecords
    (if maxRecords ≠ 0 ∧ maxRecords < totalCount then maxRecords else totalCount)
    (Nat.pos_iff_ne_zero.mp hmax) fuel
    ⟨0, [], [(0, if maxRecords ≠ 0 ∧ maxRecords < totalCount then maxRecords else totalCount)], []⟩
    (by simp)
  exact ⟨h.1, h.2.1, h.2.2, hfull⟩

/-- C10 (witness): a concrete budget-respecting API (each page returns
exactly the requested number of records) with `max_records = 3` stays
within the budget, issues capped requests only while the budget remains,
and every non-final request got a full non-empty page. -/
theorem claimC10_witness :
    (chefsScrape (fun limit _offset => some (List.range limit)) (fun n : Nat => n)
      10 3 6).results.length ≤ 3 ∧
    (∀ e ∈ (chefsScrape (fun limit _offset => some (List.range limit)) (fun n : Nat => n)
      10 3 6).requests, e.1 = min PAGE_SIZE (3 - e.2.2)) ∧
    (∀ e ∈ (chefsScrape (fun limit _offset => some (List.range limit)) (fun n : Nat => n)
      10 3 6).requests, e.2.2 < 3) ∧
    (∀ e ∈ (chefsScrape (fun limit _offset => some (List.range limit)) (fun n : Nat => n)
      10 3 6).requests.dropLast,
      ∃ rs, (fun limit _offset => some (List.range limit) : Nat → Nat → Option (List Nat))
        e.1 e.2.1 = some rs ∧ rs ≠ [] ∧ e.1 ≤ rs.length) := by
  exact claimC10 (fun limit _offset => some (List.range limit)) (fun n => n) 10 3 6
    (by decide) (fun l o rs h => by injection h with h2; rw [← h2]; simp)

lemma boundedReqs_length (src : Nat → Option (List Startup)) :
    ∀ b p, (boundedReqs src p b).length ≤ b := by
  intro b
  induction b with
  | zero => intro p; simp [boundedReqs]
  | succ b ih =>
    intro p
    rw [boundedReqs]
    by_cases h : badPage src p = true
    · simp [h]
    · simp only [h, ite_false, List.length_cons]
      exact Nat.succ_le_succ (ih (p + 1))

lemma boundedReqs_eq_range' (src : Nat → Option (List Startup)) :
    ∀ b p, boundedReqs src p b = List.range' p (boundedReqs src p b).length := by
  intro b
  induction b with
  | zero => intro p; simp [boundedReqs]
  | succ b ih =>
    intro p
    rw [boundedReqs]
    by_cases h : badPage src p = true
    · simp [h]
    · have h' : badPage src p = false := by simpa using h
      rw [if_neg (by simp [h'])]
      simp only [List.length_cons, List.range'_succ]
      rw [← ih (p + 1)]

lemma boundedReqs_mem_succ (src : Nat → Option (List Startup)) :
    ∀ b p i, (i + 1) ∈ boundedReqs src p b → i + 1 = p ∨ badPage src i = false := by
  intro b
  induction b with
  | zero => intro p i h; simp [boundedReqs] at h
  | succ b ih =>
    intro p i h
    rw [boundedReqs] at h
    rcases List.mem_cons.mp h with h | h
    · exact Or.inl h
    · by_cases hb : badPage src p = true
      · rw [if_pos hb] at h
        simp at h
      · rw [if_neg hb] at h
        rcases ih (p + 1) i h with h' | h'
        · right
          have hip : i = p := by omega
          subst hip
          simpa using hb
        · exact Or.inr h'

lemma boundedReqs_mem_of_good (src : Nat → Option (List Startup)) :
    ∀ b p i, p ≤ i → i < p + b →
      (∀ j, p ≤ j → j < i → badPage src j = false) → i ∈ boundedReqs src p b := by
  intro b
  induction b with
  | zero => intro p i h1 h2 _; omega
  | succ b ih =>
    intro p i h1 h2 hj
    rw [boundedReqs]
    by_cases hip : i = p
    · subst hip
      exact List.mem_cons_self _ _
    · have hpi : p < i := by omega
      have hbp : badPage src p = false := hj p (Nat.le_refl p) hpi
      rw [if_neg (by simp [hbp])]
      exact List.mem_cons_of_mem _
        (ih (p + 1) i (by omega) (by omega) (fun j hj1 hj2 => hj j (by omega) hj2))

lemma badPage_eq_false_iff (src : Nat → Option (List Startup)) (i : Nat) :
    badPage src i = false ↔ ∃ l, src i = some l ∧ l ≠ [] := by
  cases h : src i with
  | none => simp [badPage, h]
  | some l => cases l <;> simp [badPage, h]

lemma scrapeLoop_reqs (src : Nat → Option (List Startup)) :
    ∀ b p st fuel, b < fuel → 0 < p + b →
      (scrapeLoop noStop src (p + b) fuel p st).pagesRequested.map Prod.snd =
        st.pagesRequested.map Prod.snd ++ boundedReqs src p b := by
  intro b
  induction b with
  | zero =>
    intro p st fuel hf hp
    cases fuel with
    | zero => omega
    | succ f =>
      rw [scrapeLoop]
      dsimp only
      rw [if_neg (show ¬(noStop st.t = true) from by simp [noStop])]
      rw [if_pos (show p + 0 ≠ 0 ∧ p + 0 ≤ p from by omega)]
      simp [boundedReqs]
  | succ b ih =>
    intro p st fuel hf hp
    cases fuel with
    | zero => omega
    | succ f =>
      rw [scrapeLoop]
      dsimp only
      rw [if_neg (show ¬(noStop st.t = true) from by simp [noStop])]
      rw [if_neg (show ¬(p + (b + 1) ≠ 0 ∧ p + (b + 1) ≤ p) from by omega)]
      cases hsp : src p with
      | none => simp [boundedReqs, badPage, hsp]
      | some l =>
        dsimp only
        by_cases hl : l = []
        · subst hl
          simp [boundedReqs, badPage, hsp]
        · rw [if_neg hl]
          have hN : p + (b + 1) = (p + 1) + b := by omega
          rw [hN]
          rw [ih (p + 1) _ f (by omega) (by omega)]
          simp [boundedReqs, badPage, hsp, hl, List.isEmpty_iff]

lemma mergeDetail_nom (s : Startup) (e : DetailExtra) :
    (mergeDetail s e).nom = s.nom := by
  simp only [mergeDetail]
  split_ifs <;> rfl

lemma mergeDetail_detail_url (s : Startup) (e : DetailExtra) :
    (mergeDetail s e).detail_url = s.detail_url := by
  simp only [mergeDetail]
  split_ifs <;> rfl

lemma mergeDetail_key (s : Startup) (e : DetailExtra) :
    identityKey (mergeDetail s e) = identityKey s := by
  unfold identityKey
  rw [mergeDetail_nom, mergeDetail_detail_url]

lemma scrapeDetailLoop_state (stopAt : Nat → Bool) (dsrc : String → DetailExtra)
    (total : Nat) :
    ∀ (l : List Startup) (done : Nat) (st : ScrapeState),
      (scrapeDetailLoop stopAt dsrc total done l st).2.pagesRequested = st.pagesRequested ∧
      (scrapeDetailLoop stopAt dsrc total done l st).2.resultBatches = st.resultBatches ∧
      (scrapeDetailLoop stopAt dsrc total done l st).1.map identityKey = l.map identityKey := by
  intro l
  induction l with
  | nil => intro done st; exact ⟨rfl, rfl, rfl⟩
  | cons s rest ih =>
    intro done st
    rw [scrapeDetailLoop]
    dsimp only
    by_cases h1 : stopAt st.t = true
    · rw [if_pos h1]
      exact ⟨rfl, rfl, rfl⟩
    · rw [if_neg h1]
      by_cases h2 : s.detail_url = ""
      · rw [if_pos h2, if_pos h2]
        dsimp only
        by_cases h3 : stopAt (st.t + 1) = true
        · rw [if_pos h3]
          exact ⟨rfl, rfl, rfl⟩
        · rw [if_neg h3]
          dsimp only
          refine ⟨(ih (done + 1) _).1, (ih (done + 1) _).2.1, ?_⟩
          simp only [List.map_cons]
          rw [(ih (done + 1) _).2.2]
      · rw [if_neg h2, if_neg h2]
        dsimp only
        by_cases h3 : stopAt (st.t + 1) = true
        · rw [if_pos h3]
          simp [mergeDetail_key]
        · rw [if_neg h3]
          dsimp only
          refine ⟨(ih (done + 1) _).1, (ih (done + 1) _).2.1, ?_⟩
          simp only [List.map_cons, mergeDetail_key]
          rw [(ih (done + 1) _).2.2]

lemma pepitesScrapeBody_pagesRequested (stopAt : Nat → Bool)
    (src : Nat → Option (List Startup)) (dsrc : String → DetailExtra)
    (numPages : Nat) (withDetails : Bool) (fuel : Nat) :
    (pepitesScrapeBody stopAt src dsrc numPages withDetails fuel).pagesRequested =
      (scrapeLoop stopAt src numPages fuel 0 ScrapeState.init).pagesRequested := by
  unfold pepitesScrapeBody
  dsimp only
  by_cases h1 : (withDetails = true) ∧
      (scrapeLoop stopAt src numPages fuel 0 ScrapeState.init).allStartups ≠ []
  · rw [if_pos h1]
    by_cases h2 : stopAt (scrapeLoop stopAt src numPages fuel 0 ScrapeState.init).t = true
    · rw [if_pos h2]
    · rw [if_neg h2]
      exact (scrapeDetailLoop_state stopAt dsrc _ _ 0 _).1
  · rw [if_neg h1]

/-- C1: for every `max_pages = N > 0` the single-listing crawl issues at
most N listing-page requests, the requested pages are exactly an initial
segment `0..k-1` in increasing order, every non-final requested page had
returned a non-empty record list (the loop stops at the first empty or
failing page), and every page whose predecessors all returned non-empty
lists (up to N-1) is indeed requested. -/
theorem claimC1 (src : Nat → Option (List Startup)) (dsrc : String → DetailExtra)
    (N : Nat) (withDetails : Bool) (fuel : Nat) (hN : 0 < N) (hfuel : N < fuel) :
    (pepitesScrape noStop src dsrc N withDetails fuel).pagesRequested.map Prod.snd =
      List.range
        ((pepitesScrape noStop src dsrc N withDetails fuel).pagesRequested.map Prod.snd).length ∧
    ((pepitesScrape noStop src dsrc N withDetails fuel).pagesRequested.map Prod.snd).length ≤ N ∧
    (∀ i, (i + 1) ∈ (pepitesScrape noStop src dsrc N withDetails fuel).pagesRequested.map Prod.snd →
      ∃ l, src i = some l ∧ l ≠ []) ∧
    (∀ i, i < N → (∀ j, j < i → ∃ l, src j = some l ∧ l ≠ []) →
      i ∈ (pepitesScrape noStop src dsrc N withDetails fuel).pagesRequested.map Prod.snd) := by
  have hbody : (pepitesScrape noStop src dsrc N withDetails fuel).pagesRequested =
      (scrapeLoop noStop src N fuel 0 ScrapeState.init).pagesRequested :=
    pepitesScrapeBody_pagesRequested noStop src dsrc N withDetails fuel
  have hreqs : (pepitesScrape noStop src dsrc N withDetails fuel).pagesRequested.map Prod.snd =
      boundedReqs src 0 N := by
    rw [hbody]
    have h := scrapeLoop_reqs src N 0 ScrapeState.init fuel (by omega) (by omega)
    rw [Nat.zero_add] at h
    simpa [ScrapeState.init] using h
  rw [hreqs]
  refine ⟨?_, boundedReqs_length src N 0, ?_, ?_⟩
  · rw [List.range_eq_range']
    exact boundedReqs_eq_range' src N 0
  · intro i hi
    rcases boundedReqs_mem_succ src N 0 i hi with h | h
    · omega
    · exact (badPage_eq_false_iff src i).mp h
  · intro i hiN hgood
    refine boundedReqs_mem_of_good src N 0 i (Nat.zero_le i) (by omega) ?_
    intro j _ hji
    exact (badPage_eq_false_iff src j).mpr (hgood j hji)

/-- C1 (witness): a concrete source with two non-empty pages then an empty
page, `max_pages = 3`, requests exactly pages 0, 1, 2. -/
theorem claimC1_witness :
    (pepitesScrape noStop
        (fun p => if p ≤ 1 then some [⟨"a", "", "", "", 0, "", "", "", "", ""⟩] else some [])
        (fun _ => ⟨"", "", "", "", ""⟩) 3 false 5).pagesRequested.map Prod.snd =
      List.range
        ((pepitesScrape noStop
          (fun p => if p ≤ 1 then some [⟨"a", "", "", "", 0, "", "", "", "", ""⟩] else some [])
          (fun _ => ⟨"", "", "", "", ""⟩) 3 false 5).pagesRequested.map Prod.snd).length ∧
    ((pepitesScrape noStop
        (fun p => if p ≤ 1 then some [⟨"a", "", "", "", 0, "", "", "", "", ""⟩] else some [])
        (fun _ => ⟨"", "", "", "", ""⟩) 3 false 5).pagesRequested.map Prod.snd).length ≤ 3 := by
  have h := claimC1
    (fun p => if p ≤ 1 then some [⟨"a", "", "", "", 0, "", "", "", "", ""⟩] else some [])
    (fun _ => ⟨"", "", "", "", ""⟩) 3 false 5 (by omega) (by omega)
  exact ⟨h.1, h.2.1⟩

lemma pepitesScrape_eq_of_noDetails (stopAt : Nat → Bool)
    (src : Nat → Option (List Startup)) (dsrc : String → DetailExtra)
    (numPages fuel : Nat) :
    pepitesScrape stopAt src dsrc numPages false fuel =
      { scrapeLoop stopAt src numPages fuel 0 ScrapeState.init with
        progressCalls :=
          (scrapeLoop stopAt src numPages fuel 0 ScrapeState.init).progressCalls ++ [(1, 1)] } := by
  unfold pepitesScrape pepitesScrapeBody
  rw [if_neg (by simp)]

lemma scrapeLoop_step_unb (src : Nat → Option (List Startup)) (fuel page : Nat)
    (st : ScrapeState) (l : List Startup) (hl : src page = some l) (hne : l ≠ []) :
    scrapeLoop noStop src 0 (fuel + 1) page st =
      scrapeLoop noStop src 0 fuel (page + 1)
        { st with
          t := st.t + 1,
          allStartups := st.allStartups ++ l,
          resultBatches := st.resultBatches ++ [l],
          progressCalls := st.progressCalls ++ [(page, max (page + 1) 1)],
          pagesRequested := st.pagesRequested ++ [(st.t, page)] } := by
  rw [scrapeLoop]
  simp [noStop, hl, hne]

lemma scrapeLoop_last_unb (src : Nat → Option (List Startup)) (fuel page : Nat)
    (st : ScrapeState) (hl : src page = some []) :
    scrapeLoop noStop src 0 (fuel + 1) page st =
      { st with
        t := st.t + 1,
        progressCalls := st.progressCalls ++ [(page, max (page + 1) 1)],
        pagesRequested := st.pagesRequested ++ [(st.t, page)] } := by
  rw [scrapeLoop]
  simp [noStop, hl]

lemma scrapeLoop_step_bdd (src : Nat → Option (List Startup)) (N fuel page : Nat)
    (st : ScrapeState) (l : List Startup) (hN : N ≠ 0) (hpage : page < N)
    (hl : src page = some l) (hne : l ≠ []) :
    scrapeLoop noStop src N (fuel + 1) page st =
      scrapeLoop noStop src N fuel (page + 1)
        { st with
          t := st.t + 1,
          allStartups := st.allStartups ++ l,
          resultBatches := st.resultBatches ++ [l],
          progressCalls := st.progressCalls ++ [(page, N)],
          pagesRequested := st.pagesRequested ++ [(st.t, page)] } := by
  rw [scrapeLoop]
  simp [noStop, hl, hne, hN, Nat.not_le.mpr hpage]

lemma scrapeLoop_guard_bdd (src : Nat → Option (List Startup)) (N fuel page : Nat)
    (st : ScrapeState) (hN : N ≠ 0) (hpage : N ≤ page) :
    scrapeLoop noStop src N (fuel + 1) page st = { st with t := st.t + 1 } := by
  rw [scrapeLoop]
  simp [noStop, hN, hpage]

/-- C2: in unbounded mode (`max_pages = 0`), with a source whose pages
0, 1, 2 are non-empty and whose page 3 is empty, exactly 4 page requests
occur (pages 0, 1, 2, 3) and the result callback fires exactly 3 times,
each time with one of the non-empty page batches. -/
theorem claimC2 (src : Nat → Option (List Startup)) (dsrc : String → DetailExtra)
    (l0 l1 l2 : List Startup) (fuel : Nat) (hfuel : 4 ≤ fuel)
    (h0 : src 0 = some l0) (n0 : l0 ≠ [])
    (h1 : src 1 = some l1) (n1 : l1 ≠ [])
    (h2 : src 2 = some l2) (n2 : l2 ≠ [])
    (h3 : src 3 = some []) :
    (pepitesScrape noStop src dsrc 0 false fuel).pagesRequested.map Prod.snd = [0, 1, 2, 3] ∧
    (pepitesScrape noStop src dsrc 0 false fuel).pagesRequested.length = 4 ∧
    (pepitesScrape noStop src dsrc 0 false fuel).resultBatches = [l0, l1, l2] ∧
    (pepitesScrape noStop src dsrc 0 false fuel).resultBatches.length = 3 ∧
    ∀ b ∈ (pepitesScrape noStop src dsrc 0 false fuel).resultBatches, b ≠ [] := by
  obtain ⟨f, rfl⟩ : ∃ f, fuel = f + 4 := ⟨fuel - 4, by omega⟩
  rw [pepitesScrape_eq_of_noDetails]
  rw [show f + 4 = f + 3 + 1 from rfl, scrapeLoop_step_unb src (f + 3) 0 _ l0 h0 n0]
  rw [show f + 3 = f + 2 + 1 from rfl, scrapeLoop_step_unb src (f + 2) 1 _ l1 h1 n1]
  rw [show f + 2 = f + 1 + 1 from rfl, scrapeLoop_step_unb src (f + 1) 2 _ l2 h2 n2]
  rw [scrapeLoop_last_unb src f 3 _ h3]
  refine ⟨by simp [ScrapeState.init], by simp [ScrapeState.init],
    by simp [ScrapeState.init], by simp [ScrapeState.init], ?_⟩
  intro b hb
  simp [ScrapeState.init] at hb
  rcases hb with rfl | rfl | rfl <;> assumption

/-- C2 (witness): a concrete source realising the 3-non-empty-pages-then-
empty scenario issues requests [0, 1, 2, 3] and delivers 3 non-empty
batches. -/
theorem claimC2_witness :
    (pepitesScrape noStop
        (fun p => if p ≤ 2 then some [⟨"a", "", "", "", 0, "", "", "", "", ""⟩] else some [])
        (fun _ => ⟨"", "", "", "", ""⟩) 0 false 9).pagesRequested.map Prod.snd = [0, 1, 2, 3] ∧
    (pepitesScrape noStop
        (fun p => if p ≤ 2 then some [⟨"a", "", "", "", 0, "", "", "", "", ""⟩] else some [])
        (fun _ => ⟨"", "", "", "", ""⟩) 0 false 9).resultBatches.length = 3 := by
  have h := claimC2
    (fun p => if p ≤ 2 then some [⟨"a", "", "", "", 0, "", "", "", "", ""⟩] else some [])
    (fun _ => ⟨"", "", "", "", ""⟩)
    [⟨"a", "", "", "", 0, "", "", "", "", ""⟩] [⟨"a", "", "", "", 0, "", "", "", "", ""⟩]
    [⟨"a", "", "", "", 0, "", "", "", "", ""⟩] 9 (by omega)
    (by decide) (by decide) (by decide) (by decide) (by decide) (by decide) (by decide)
  exact ⟨h.1, h.2.2.2.1⟩

/-- C5 (counterexample): in the concrete scenario of the claim
(`max_pages = 2`, `with_details = False`, 5 records on page 0 and 3 on
page 1) no progress callback ever reports `(2, 2)`: the in-loop calls are
`(0, 2)` and `(1, 2)` and the final call of `src/scraper.py` lines 384-385
is `(1, 1)`. -/
theorem claimC5_counterexample :
    (2, 2) ∉ (pepitesScrape noStop
      (fun p => if p = 0 then some (List.replicate 5 ⟨"a", "", "", "", 0, "", "", "", "", ""⟩)
                else if p = 1 then some (List.replicate 3 ⟨"b", "", "", "", 0, "", "", "", "", ""⟩)
                else some [])
      (fun _ => ⟨"", "", "", "", ""⟩) 2 false 3).progressCalls := by
  decide

/-- C5 (amended): in the scenario of the claim the crawl returns 8 records
and delivers 2 result batches of sizes 5 then 3, but the final progress
callback reports `(1, 1)` (which still satisfies `current = total`), not
`(2, 2)`. -/
theorem claimC5 (src : Nat → Option (List Startup)) (dsrc : String → DetailExtra)
    (l0 l1 : List Startup) (fuel : Nat) (hfuel : 3 ≤ fuel)
    (h0 : src 0 = some l0) (hl0 : l0.length = 5)
    (h1 : src 1 = some l1) (hl1 : l1.length = 3) :
    (pepitesScrape noStop src dsrc 2 false fuel).allStartups.length = 8 ∧
    (pepitesScrape noStop src dsrc 2 false fuel).resultBatches.map List.length = [5, 3] ∧
    (pepitesScrape noStop src dsrc 2 false fuel).progressCalls.getLast? = some (1, 1) := by
  have n0 : l0 ≠ [] := by intro h; rw [h] at hl0; simp at hl0
  have n1 : l1 ≠ [] := by intro h; rw [h] at hl1; simp at hl1
  obtain ⟨f, rfl⟩ : ∃ f, fuel = f + 3 := ⟨fuel - 3, by omega⟩
  rw [pepitesScrape_eq_of_noDetails]
  rw [show f + 3 = f + 2 + 1 from rfl,
    scrapeLoop_step_bdd src 2 (f + 2) 0 _ l0 (by omega) (by omega) h0 n0]
  rw [show f + 2 = f + 1 + 1 from rfl,
    scrapeLoop_step_bdd src 2 (f + 1) 1 _ l1 (by omega) (by omega) h1 n1]
  rw [scrapeLoop_guard_bdd src 2 f 2 _ (by omega) (by omega)]
  exact ⟨by simp [ScrapeState.init, hl0, hl1],
    by simp [ScrapeState.init, hl0, hl1],
    by simp [ScrapeState.init]⟩

/-- C5 (witness): the concrete 5-then-3 source realises the amended
scenario. -/
theorem claimC5_witness :
    (pepitesScrape noStop
      (fun p => if p = 0 then some (List.replicate 5 ⟨"a", "", "", "", 0, "", "", "", "", ""⟩)
                else if p = 1 then some (List.replicate 3 ⟨"b", "", "", "", 0, "", "", "", "", ""⟩)
                else some [])
      (fun _ => ⟨"", "", "", "", ""⟩) 2 false 3).allStartups.length = 8 ∧
    (pepitesScrape noStop
      (fun p => if p = 0 then some (List.replicate 5 ⟨"a", "", "", "", 0, "", "", "", "", ""⟩)
                else if p = 1 then some (List.replicate 3 ⟨"b", "", "", "", 0, "", "", "", "", ""⟩)
                else some [])
      (fun _ => ⟨"", "", "", "", ""⟩) 2 false 3).progressCalls.getLast? = some (1, 1) := by
  have h := claimC5
    (fun p => if p = 0 then some (List.replicate 5 ⟨"a", "", "", "", 0, "", "", "", "", ""⟩)
              else if p = 1 then some (List.replicate 3 ⟨"b", "", "", "", 0, "", "", "", "", ""⟩)
              else some [])
    (fun _ => ⟨"", "", "", "", ""⟩)
    (List.replicate 5 ⟨"a", "", "", "", 0, "", "", "", "", ""⟩)
    (List.replicate 3 ⟨"b", "", "", "", 0, "", "", "", "", ""⟩)
    3 (by omega) (by decide) (by decide) (by decide) (by decide)
  exact ⟨h.1, h.2.2⟩

/-- C7 (counterexample): a completed, non-cancelled run of
`scrape_all_categories` with an empty discovered category set returns at
`src/scraper.py` line 227 before any progress call: zero — not exactly
one — final progress callbacks are made, refuting the claim for that run. -/
theorem claimC7_counterexample :
    (scrapeAllCategories noStop [] (fun _ _ => some [])
      (fun _ => ⟨"", "", "", "", ""⟩) false 3).progressCalls = [] ∧
    (scrapeAllCategories noStop [] (fun _ _ => some [])
      (fun _ => ⟨"", "", "", "", ""⟩) false 3).progressCalls.getLast? = none := by
  decide

/-- C7 (amended): for every completed (non-cancelled) run of `scrape`, of
`scrape_all_categories` with a non-empty discovered category set, and of
the open-data chefs `scrape`, the final progress callback exists and
satisfies `current = total`: the two pepites runs end with the
unconditional `(1, 1)` call and the chefs run ends with
`(len(results), len(results))`; a `scrape_all_categories` run with an
empty category set returns immediately (`src/scraper.py` line 227) and
makes no progress call at all. -/
theorem claimC7 {α β : Type}
    (src : Nat → Option (List Startup)) (dsrc : String → DetailExtra)
    (numPages : Nat) (withDetails : Bool) (fuel : Nat)
    (cats : List String) (csrc : String → Nat → Option (List Startup))
    (wd2 : Bool) (fuel2 : Nat) (hcats : cats ≠ [])
    (api : Nat → Nat → Option (List α)) (parse : α → β)
    (totalCount maxRecords fuel3 : Nat) :
    (∃ p, (pepitesScrape noStop src dsrc numPages withDetails fuel).progressCalls.getLast? =
        some p ∧ p.1 = p.2) ∧
    (∃ p, (scrapeAllCategories noStop cats csrc dsrc wd2 fuel2).progressCalls.getLast? =
        some p ∧ p.1 = p.2) ∧
    (∃ p, (chefsScrape api parse totalCount maxRecords fuel3).progressCalls.getLast? =
        some p ∧ p.1 = p.2) ∧
    (scrapeAllCategories noStop [] csrc dsrc wd2 fuel2).progressCalls = [] := by
  refine ⟨⟨(1, 1), List.getLast?_concat _, rfl⟩, ?_, ⟨_, List.getLast?_concat _, rfl⟩, ?_⟩
  · rw [scrapeAllCategories, if_neg hcats]
    exact ⟨(1, 1), List.getLast?_concat _, rfl⟩
  · rw [scrapeAllCategories, if_pos rfl]
    rfl

/-- C7 (witness): concrete runs of the three crawls, each ending with a
`current = total` final progress call, and the concrete empty-category
run making no progress call. -/
theorem claimC7_witness :
    (∃ p, (pepitesScrape noStop (fun _ => some []) (fun _ => ⟨"", "", "", "", ""⟩)
        1 false 3).progressCalls.getLast? = some p ∧ p.1 = p.2) ∧
    (∃ p, (scrapeAllCategories noStop ["saas"] (fun _ _ => some [])
        (fun _ => ⟨"", "", "", "", ""⟩) false 3).progressCalls.getLast? = some p ∧ p.1 = p.2) ∧
    (∃ p, (chefsScrape (fun _ _ => some ([] : List Nat)) (fun n => n)
        7 0 3).progressCalls.getLast? = some p ∧ p.1 = p.2) ∧
    (scrapeAllCategories noStop [] (fun _ _ => some [])
      (fun _ => ⟨"", "", "", "", ""⟩) false 3).progressCalls = [] :=
  claimC7 (fun _ => some []) (fun _ => ⟨"", "", "", "", ""⟩) 1 false 3
    ["saas"] (fun _ _ => some []) false 3 (by decide)
    (fun _ _ => some ([] : List Nat)) (fun n => n) 7 0 3

lemma dedupNew_keys (l : List Startup) : ∀ seen : List (String × Startup),
    (dedupNew seen l).1.map Prod.fst =
      seen.map Prod.fst ++ (dedupNew seen l).2.map identityKey ∧
    ((seen.map Prod.fst).Nodup → ((dedupNew seen l).1.map Prod.fst).Nodup) := by
  induction l with
  | nil => intro seen; simp [dedupNew]
  | cons s rest ih =>
    intro seen
    rw [dedupNew]
    dsimp only
    by_cases h : (seen.map Prod.fst).contains (identityKey s) = true
    · rw [if_pos h]
      exact ih seen
    · rw [if_neg h]
      dsimp only
      have h2 := ih (seen ++ [(identityKey s, s)])
      constructor
      · rw [h2.1]
        simp
      · intro hnd
        apply h2.2
        have hmem : identityKey s ∉ seen.map Prod.fst := by
          simpa using h
        simp [List.nodup_append, hnd, hmem]

lemma catPageLoop_inv (stopAt : Nat → Bool) (src : String → Nat → Option (List Startup))
    (slug : String) :
    ∀ fuel page (st : CatsState),
      st.resultBatches.join.map identityKey = st.seen.map Prod.fst →
      (st.seen.map Prod.fst).Nodup →
      (catPageLoop stopAt src slug fuel page st).resultBatches.join.map identityKey =
        (catPageLoop stopAt src slug fuel page st).seen.map Prod.fst ∧
      ((catPageLoop stopAt src slug fuel page st).seen.map Prod.fst).Nodup := by
  intro fuel
  induction fuel with
  | zero => intro page st hinv1 hinv2; exact ⟨hinv1, hinv2⟩
  | succ fuel ih =>
    intro page st hinv1 hinv2
    rw [catPageLoop]
    dsimp only
    by_cases h1 : stopAt st.t = true
    · rw [if_pos h1]
      exact ⟨hinv1, hinv2⟩
    · rw [if_neg h1]
      cases hsp : src slug page with
      | none => exact ⟨hinv1, hinv2⟩
      | some startups =>
        dsimp only
        by_cases h2 : startups = []
        · rw [if_pos h2]
          exact ⟨hinv1, hinv2⟩
        · rw [if_neg h2]
          refine ih (page + 1) _ ?_ ?_
          · dsimp only
            by_cases h3 : (dedupNew st.seen startups).2 = []
            · rw [if_pos h3, (dedupNew_keys startups st.seen).1, h3]
              simpa using hinv1
            · rw [if_neg h3, (dedupNew_keys startups st.seen).1]
              simp [hinv1]
          · exact (dedupNew_keys startups st.seen).2 hinv2

lemma catsLoop_inv (stopAt : Nat → Bool) (src : String → Nat → Option (List Startup))
    (fuel totalCats : Nat) :
    ∀ (pairs : List (Nat × String)) (st : CatsState),
      st.resultBatches.join.map identityKey = st.seen.map Prod.fst →
      (st.seen.map Prod.fst).Nodup →
      (catsLoop stopAt src fuel totalCats pairs st).resultBatches.join.map identityKey =
        (catsLoop stopAt src fuel totalCats pairs st).seen.map Prod.fst ∧
      ((catsLoop stopAt src fuel totalCats pairs st).seen.map Prod.fst).Nodup := by
  intro pairs
  induction pairs with
  | nil => intro st h1 h2; exact ⟨h1, h2⟩
  | cons p rest ih =>
    intro st h1 h2
    obtain ⟨catIdx, slug⟩ := p
    rw [catsLoop]
    dsimp only
    by_cases hs : stopAt st.t = true
    · rw [if_pos hs]
      exact ⟨h1, h2⟩
    · rw [if_neg hs]
      have h3 := catPageLoop_inv stopAt src slug fuel 0
        { st with t := st.t + 1, progressCalls := st.progressCalls ++ [(catIdx, totalCats)] }
        h1 h2
      exact ih _ h3.1 h3.2

lemma catsDetailLoop_state (stopAt : Nat → Bool) (dsrc : String → DetailExtra)
    (total : Nat) :
    ∀ (l : List (String × Startup)) (done : Nat) (st : CatsState),
      (catsDetailLoop stopAt dsrc total done l st).2.resultBatches = st.resultBatches ∧
      (catsDetailLoop stopAt dsrc total done l st).2.pagesRequested = st.pagesRequested ∧
      (catsDetailLoop stopAt dsrc total done l st).2.seen = st.seen ∧
      (catsDetailLoop stopAt dsrc total done l st).1.map Prod.fst = l.map Prod.fst := by
  intro l
  induction l with
  | nil => intro done st; exact ⟨rfl, rfl, rfl, rfl⟩
  | cons p rest ih =>
    intro done st
    rw [catsDetailLoop]
    dsimp only
    by_cases h1 : p.2.detail_url = ""
    · rw [if_pos h1]
      refine ⟨(ih done st).1, (ih done st).2.1, (ih done st).2.2.1, ?_⟩
      simp only [List.map_cons]
      rw [(ih done st).2.2.2]
    · rw [if_neg h1]
      by_cases h2 : stopAt st.t = true
      · rw [if_pos h2]
        exact ⟨rfl, rfl, rfl, rfl⟩
      · rw [if_neg h2]
        by_cases h3 : stopAt (st.t + 1) = true
        · rw [if_pos h3]
          exact ⟨rfl, rfl, rfl, rfl⟩
        · rw [if_neg h3]
          refine ⟨(ih (done + 1) _).1, (ih (done + 1) _).2.1, (ih (done + 1) _).2.2.1, ?_⟩
          simp only [List.map_cons]
          rw [(ih (done + 1) _).2.2.2]

lemma scrapeAllCategoriesBody_inv (stopAt : Nat → Bool) (cats : List String)
    (csrc : String → Nat → Option (List Startup)) (dsrc : String → DetailExtra)
    (wd : Bool) (fuel : Nat) :
    (scrapeAllCategoriesBody stopAt cats csrc dsrc wd fuel).resultBatches.join.map identityKey =
      (scrapeAllCategoriesBody stopAt cats csrc dsrc wd fuel).seen.map Prod.fst ∧
    ((scrapeAllCategoriesBody stopAt cats csrc dsrc wd fuel).seen.map Prod.fst).Nodup := by
  unfold scrapeAllCategoriesBody
  dsimp only
  have h := catsLoop_inv stopAt csrc fuel cats.length
    ((List.range cats.length).zip cats) CatsState.init (by simp [CatsState.init])
    (by simp [CatsState.init])
  by_cases hw : wd = true
  · rw [if_pos hw]
    by_cases h2 : stopAt (catsLoop stopAt csrc fuel cats.length
        ((List.range cats.length).zip cats) CatsState.init).t = true
    · rw [if_pos h2]
      exact h
    · rw [if_neg h2]
      dsimp only
      have h3 := catsDetailLoop_state stopAt dsrc
        (((catsLoop stopAt csrc fuel cats.length ((List.range cats.length).zip cats)
          CatsState.init).seen.filter (fun p => p.2.detail_url ≠ "")).length)
        ((catsLoop stopAt csrc fuel cats.length ((List.range cats.length).zip cats)
          CatsState.init).seen) 0
        { catsLoop stopAt csrc fuel cats.length ((List.range cats.length).zip cats)
            CatsState.init with
          t := (catsLoop stopAt csrc fuel cats.length ((List.range cats.length).zip cats)
            CatsState.init).t + 1 }
      rw [h3.1, h3.2.2.2]
      exact h
  · rw [if_neg hw]
    exact h

/-- C3: across a whole `scrape_all_categories` run, the result callback
delivers each identity key at most once: the concatenation of all delivered
batches has pairwise distinct identity keys, even when several categories
list a record with the same key. -/
theorem claimC3 (stopAt : Nat → Bool) (cats : List String)
    (csrc : String → Nat → Option (List Startup)) (dsrc : String → DetailExtra)
    (wd : Bool) (fuel : Nat) :
    ((scrapeAllCategories stopAt cats csrc dsrc wd fuel).resultBatches.join.map
      identityKey).Nodup := by
  rw [scrapeAllCategories]
  by_cases hc : cats = []
  · rw [if_pos hc]
    simp [CatsState.init]
  · rw [if_neg hc]
    dsimp only
    have h := scrapeAllCategoriesBody_inv stopAt cats csrc dsrc wd fuel
    rw [h.1]
    exact h.2

lemma stopAt_lift (stopAt : Nat → Bool)
    (mono : ∀ t, stopAt t = true → stopAt (t + 1) = true) :
    ∀ a b, a ≤ b → stopAt a = true → stopAt b = true := by
  intro a b hab h
  induction b, hab using Nat.le_induction with
  | base => exact h
  | succ n _ ih => exact mono n ih

lemma lt_of_stop_read (stopAt : Nat → Bool)
    (mono : ∀ t, stopAt t = true → stopAt (t + 1) = true)
    (t0 t : Nat) (hstop : stopAt t0 = true) (hread : stopAt t = false) : t < t0 := by
  by_contra h
  have := stopAt_lift stopAt mono t0 t (by omega) hstop
  rw [hread] at this
  exact Bool.false_ne_true this

lemma scrapeLoop_spec (stopAt : Nat → Bool) (src : Nat → Option (List Startup))
    (numPages : Nat) :
    ∀ fuel page (st : ScrapeState),
      (scrapeLoop stopAt src numPages fuel page st).detailsRequested = st.detailsRequested ∧
      ((∀ e ∈ st.pagesRequested, stopAt e.1 = false) →
        ∀ e ∈ (scrapeLoop stopAt src numPages fuel page st).pagesRequested,
          stopAt e.1 = false) ∧
      (st.allStartups = st.resultBatches.join →
        (scrapeLoop stopAt src numPages fuel page st).allStartups =
          (scrapeLoop stopAt src numPages fuel page st).resultBatches.join) := by
  intro fuel
  induction fuel with
  | zero => intro page st; exact ⟨rfl, fun h => h, fun h => h⟩
  | succ fuel ih =>
    intro page st
    rw [scrapeLoop]
    dsimp only
    by_cases h1 : stopAt st.t = true
    · rw [if_pos h1]
      exact ⟨rfl, fun h => h, fun h => h⟩
    · rw [if_neg h1]
      by_cases h2 : numPages ≠ 0 ∧ numPages ≤ page
      · rw [if_pos h2]
        exact ⟨rfl, fun h => h, fun h => h⟩
      · rw [if_neg h2]
        have hgood : ∀ (st' : ScrapeState),
            st'.pagesRequested = st.pagesRequested ++ [(st.t, page)] →
            (∀ e ∈ st.pagesRequested, stopAt e.1 = false) →
            ∀ e ∈ st'.pagesRequested, stopAt e.1 = false := by
          intro st' hst' h e he
          rw [hst'] at he
          rcases List.mem_append.mp he with he | he
          · exact h e he
          · simp only [List.mem_singleton] at he
            subst he
            simpa using h1
        cases hsp : src page with
        | none => exact ⟨rfl, hgood _ rfl, fun h => h⟩
        | some startups =>
          dsimp only
          by_cases h3 : startups = []
          · rw [if_pos h3]
            exact ⟨rfl, hgood _ rfl, fun h => h⟩
          · rw [if_neg h3]
            refine ⟨(ih (page + 1) _).1, ?_, ?_⟩
            · intro h
              exact (ih (page + 1) _).2.1 (hgood _ rfl h)
            · intro h
              refine (ih (page + 1) _).2.2 ?_
              dsimp only
              rw [h]
              simp
  
lemma scrapeDetailLoop_good (stopAt : Nat → Bool) (dsrc : String → DetailExtra)
    (total : Nat) :
    ∀ (l : List Startup) (done : Nat) (st : ScrapeState),
      (∀ e ∈ st.detailsRequested, stopAt e.1 = false) →
      ∀ e ∈ (scrapeDetailLoop stopAt dsrc total done l st).2.detailsRequested,
        stopAt e.1 = false := by
  intro l
  induction l with
  | nil => intro done st h; exact h
  | cons s rest ih =>
    intro done st h
    rw [scrapeDetailLoop]
    dsimp only
    by_cases h1 : stopAt st.t = true
    · rw [if_pos h1]
      exact h
    · rw [if_neg h1]
      by_cases h2 : s.detail_url = ""
      · rw [if_pos h2, if_pos h2]
        dsimp only
        by_cases h3 : stopAt (st.t + 1) = true
        · rw [if_pos h3]
          exact h
        · rw [if_neg h3]
          exact ih (done + 1) _ h
      · rw [if_neg h2, if_neg h2]
        dsimp only
        have h' : ∀ e ∈ st.detailsRequested ++ [(st.t, s.detail_url)],
            stopAt e.1 = false := by
          intro e he
          rcases List.mem_append.mp he with he | he
          · exact h e he
          · simp only [List.mem_singleton] at he
            subst he
            simpa using h1
        by_cases h3 : stopAt (st.t + 1) = true
        · rw [if_pos h3]
          exact h'
        · rw [if_neg h3]
          exact ih (done + 1) _ h'

lemma catPageLoop_good (stopAt : Nat → Bool) (src : String → Nat → Option (List Startup))
    (slug : String) :
    ∀ fuel page (st : CatsState),
      (catPageLoop stopAt src slug fuel page st).detailsRequested = st.detailsRequested ∧
      ((∀ e ∈ st.pagesRequested, stopAt e.1 = false) →
        ∀ e ∈ (catPageLoop stopAt src slug fuel page st).pagesRequested,
          stopAt e.1 = false) := by
  intro fuel
  induction fuel with
  | zero => intro page st; exact ⟨rfl, fun h => h⟩
  | succ fuel ih =>
    intro page st
    rw [catPageLoop]
    dsimp only
    by_cases h1 : stopAt st.t = true
    · rw [if_pos h1]
      exact ⟨rfl, fun h => h⟩
    · rw [if_neg h1]
      have hgood : (∀ e ∈ st.pagesRequested, stopAt e.1 = false) →
          ∀ e ∈ st.pagesRequested ++ [(st.t, slug, page)], stopAt e.1 = false := by
        intro h e he
        rcases List.mem_append.mp he with he | he
        · exact h e he
        · simp only [List.mem_singleton] at he
          subst he
          simpa using h1
      cases hsp : src slug page with
      | none => exact ⟨rfl, hgood⟩
      | some startups =>
        dsimp only
        by_cases h2 : startups = []
        · rw [if_pos h2]
          exact ⟨rfl, hgood⟩
        · rw [if_neg h2]
          refine ⟨(ih (page + 1) _).1, fun h => (ih (page + 1) _).2 (hgood h)⟩

lemma catsLoop_good (stopAt : Nat → Bool) (src : String → Nat → Option (List Startup))
    (fuel totalCats : Nat) :
    ∀ (pairs : List (Nat × String)) (st : CatsState),
      (catsLoop stopAt src fuel totalCats pairs st).detailsRequested =
        st.detailsRequested ∧
      ((∀ e ∈ st.pagesRequested, stopAt e.1 = false) →
        ∀ e ∈ (catsLoop stopAt src fuel totalCats pairs st).pagesRequested,
          stopAt e.1 = false) := by
  intro pairs
  induction pairs with
  | nil => intro st; exact ⟨rfl, fun h => h⟩
  | cons p rest ih =>
    intro st
    obtain ⟨catIdx, slug⟩ := p
    rw [catsLoop]
    dsimp only
    by_cases hs : stopAt st.t = true
    · rw [if_pos hs]
      exact ⟨rfl, fun h => h⟩
    · rw [if_neg hs]
      have h1 := catPageLoop_good stopAt src slug fuel 0
        { st with t := st.t + 1, progressCalls := st.progressCalls ++ [(catIdx, totalCats)] }
      refine ⟨?_, ?_⟩
      · rw [(ih _).1, h1.1]
      · intro h
        exact (ih _).2 (h1.2 h)

lemma catsDetailLoop_good (stopAt : Nat → Bool) (dsrc : String → DetailExtra)
    (total : Nat) :
    ∀ (l : List (String × Startup)) (done : Nat) (st : CatsState),
      (∀ e ∈ st.detailsRequested, stopAt e.1 = false) →
      ∀ e ∈ (catsDetailLoop stopAt dsrc total done l st).2.detailsRequested,
        stopAt e.1 = false := by
  intro l
  induction l with
  | nil => intro done st h; exact h
  | cons p rest ih =>
    intro done st h
    rw [catsDetailLoop]
    dsimp only
    by_cases h1 : p.2.detail_url = ""
    · rw [if_pos h1]
      exact ih done st h
    · rw [if_neg h1]
      by_cases h2 : stopAt st.t = true
      · rw [if_pos h2]
        exact h
      · rw [if_neg h2]
        have h' : ∀ e ∈ st.detailsRequested ++ [(st.t, p.2.detail_url)],
            stopAt e.1 = false := by
          intro e he
          rcases List.mem_append.mp he with he | he
          · exact h e he
          · simp only [List.mem_singleton] at he
            subst he
            simpa using h2
        by_cases h3 : stopAt (st.t + 1) = true
        · rw [if_pos h3]
          exact h'
        · rw [if_neg h3]
          exact ih (done + 1) _ h'

lemma pepitesScrapeBody_good (stopAt : Nat → Bool) (src : Nat → Option (List Startup))
    (dsrc : String → DetailExtra) (numPages : Nat) (wd : Bool) (fuel : Nat) :
    (∀ e ∈ (pepitesScrapeBody stopAt src dsrc numPages wd fuel).pagesRequested,
      stopAt e.1 = false) ∧
    (∀ e ∈ (pepitesScrapeBody stopAt src dsrc numPages wd fuel).detailsRequested,
      stopAt e.1 = false) ∧
    (pepitesScrapeBody stopAt src dsrc numPages wd fuel).allStartups.map identityKey =
      (pepitesScrapeBody stopAt src dsrc numPages wd fuel).resultBatches.join.map
        identityKey := by
  unfold pepitesScrapeBody
  dsimp only
  set L := scrapeLoop stopAt src numPages fuel 0 ScrapeState.init with hdefL
  have hspec := scrapeLoop_spec stopAt src numPages fuel 0 ScrapeState.init
  rw [← hdefL] at hspec
  have hLpages : ∀ e ∈ L.pagesRequested, stopAt e.1 = false :=
    hspec.2.1 (by intro e he; simp [ScrapeState.init] at he)
  have hLdet : ∀ e ∈ L.detailsRequested, stopAt e.1 = false := by
    rw [hspec.1]
    intro e he
    simp [ScrapeState.init] at he
  have hLjoin : L.allStartups = L.resultBatches.join :=
    hspec.2.2 (by simp [ScrapeState.init])
  by_cases h1 : (wd = true) ∧ L.allStartups ≠ []
  · rw [if_pos h1]
    by_cases h2 : stopAt L.t = true
    · rw [if_pos h2]
      exact ⟨hLpages, hLdet, congrArg (List.map identityKey) hLjoin⟩
    · rw [if_neg h2]
      have hst := scrapeDetailLoop_state stopAt dsrc L.allStartups.length
        L.allStartups 0 { L with t := L.t + 1 }
      refine ⟨?_, ?_, ?_⟩
      · intro e he
        have he' : e ∈ (scrapeDetailLoop stopAt dsrc L.allStartups.length 0
            L.allStartups { L with t := L.t + 1 }).2.pagesRequested := he
        rw [hst.1] at he'
        exact hLpages e he'
      · intro e he
        have he' : e ∈ (scrapeDetailLoop stopAt dsrc L.allStartups.length 0
            L.allStartups { L with t := L.t + 1 }).2.detailsRequested := he
        exact scrapeDetailLoop_good stopAt dsrc L.allStartups.length L.allStartups 0
          { L with t := L.t + 1 } hLdet e he'
      · show (scrapeDetailLoop stopAt dsrc L.allStartups.length 0
            L.allStartups { L with t := L.t + 1 }).1.map identityKey =
          (scrapeDetailLoop stopAt dsrc L.allStartups.length 0
            L.allStartups { L with t := L.t + 1 }).2.resultBatches.join.map identityKey
        rw [hst.2.2, hst.2.1]
        exact congrArg (List.map identityKey) hLjoin
  · rw [if_neg h1]
    exact ⟨hLpages, hLdet, congrArg (List.map identityKey) hLjoin⟩

lemma scrapeAllCategoriesBody_good (stopAt : Nat → Bool) (cats : List String)
    (csrc : String → Nat → Option (List Startup)) (dsrc : String → DetailExtra)
    (wd : Bool) (fuel : Nat) :
    (∀ e ∈ (scrapeAllCategoriesBody stopAt cats csrc dsrc wd fuel).pagesRequested,
      stopAt e.1 = false) ∧
    (∀ e ∈ (scrapeAllCategoriesBody stopAt cats csrc dsrc wd fuel).detailsRequested,
      stopAt e.1 = false) := by
  unfold scrapeAllCategoriesBody
  dsimp only
  set L := catsLoop stopAt csrc fuel cats.length ((List.range cats.length).zip cats)
    CatsState.init with hdefL
  have hspec := catsLoop_good stopAt csrc fuel cats.length
    ((List.range cats.length).zip cats) CatsState.init
  rw [← hdefL] at hspec
  have hLpages : ∀ e ∈ L.pagesRequested, stopAt e.1 = false :=
    hspec.2 (by intro e he; simp [CatsState.init] at he)
  have hLdet : ∀ e ∈ L.detailsRequested, stopAt e.1 = false := by
    rw [hspec.1]
    intro e he
    simp [CatsState.init] at he
  by_cases h1 : wd = true
  · rw [if_pos h1]
    by_cases h2 : stopAt L.t = true
    · rw [if_pos h2]
      exact ⟨hLpages, hLdet⟩
    · rw [if_neg h2]
      have hst := catsDetailLoop_state stopAt dsrc
        ((L.seen.filter (fun p => p.2.detail_url ≠ "")).length) L.seen 0
        { L with t := L.t + 1 }
      refine ⟨?_, ?_⟩
      · intro e he
        have he' : e ∈ (catsDetailLoop stopAt dsrc
            ((L.seen.filter (fun p => p.2.detail_url ≠ "")).length) 0 L.seen
            { L with t := L.t + 1 }).2.pagesRequested := he
        rw [hst.2.1] at he'
        exact hLpages e he'
      · intro e he
        have he' : e ∈ (catsDetailLoop stopAt dsrc
            ((L.seen.filter (fun p => p.2.detail_url ≠ "")).length) 0 L.seen
            { L with t := L.t + 1 }).2.detailsRequested := he
        exact catsDetailLoop_good stopAt dsrc
          ((L.seen.filter (fun p => p.2.detail_url ≠ "")).length) L.seen 0
          { L with t := L.t + 1 } hLdet e he'
  · rw [if_neg h1]
    exact ⟨hLpages, hLdet⟩

/-- C6: under the cooperative cancellation protocol — the stop flag is
monotone (once set by `stop()` it stays set) — once the flag is set at read
time `t0`, every listing-page request and every detail-fetch dispatch of
both `scrape` and `scrape_all_categories` happened at a flag read strictly
before `t0` (no new request or dispatch begins after the stop), and every
record delivered through the result callback remains in the returned
result set (the delivered batches' keys coincide with the returned
records' keys — no rollback). -/
theorem claimC6 (stopAt : Nat → Bool)
    (mono : ∀ t, stopAt t = true → stopAt (t + 1) = true)
    (t0 : Nat) (hstop : stopAt t0 = true)
    (src : Nat → Option (List Startup)) (csrc : String → Nat → Option (List Startup))
    (dsrc : String → DetailExtra) (cats : List String)
    (numPages : Nat) (wd wd2 : Bool) (fuel fuel2 : Nat) :
    (∀ e ∈ (pepitesScrape stopAt src dsrc numPages wd fuel).pagesRequested, e.1 < t0) ∧
    (∀ e ∈ (pepitesScrape stopAt src dsrc numPages wd fuel).detailsRequested, e.1 < t0) ∧
    (pepitesScrape stopAt src dsrc numPages wd fuel).allStartups.map identityKey =
      (pepitesScrape stopAt src dsrc numPages wd fuel).resultBatches.join.map identityKey ∧
    (∀ e ∈ (scrapeAllCategories stopAt cats csrc dsrc wd2 fuel2).pagesRequested, e.1 < t0) ∧
    (∀ e ∈ (scrapeAllCategories stopAt cats csrc dsrc wd2 fuel2).detailsRequested, e.1 < t0) ∧
    (scrapeAllCategories stopAt cats csrc dsrc wd2 fuel2).resultBatches.join.map identityKey =
      (scrapeAllCategories stopAt cats csrc dsrc wd2 fuel2).seen.map Prod.fst := by
  have hp := pepitesScrapeBody_good stopAt src dsrc numPages wd fuel
  refine ⟨?_, ?_, hp.2.2, ?_, ?_, ?_⟩
  · intro e he
    exact lt_of_stop_read stopAt mono t0 e.1 hstop (hp.1 e he)
  · intro e he
    exact lt_of_stop_read stopAt mono t0 e.1 hstop (hp.2.1 e he)
  · intro e he
    rw [scrapeAllCategories] at he
    by_cases hc : cats = []
    · rw [if_pos hc] at he
      simp [CatsState.init] at he
    · rw [if_neg hc] at he
      exact lt_of_stop_read stopAt mono t0 e.1 hstop
        ((scrapeAllCategoriesBody_good stopAt cats csrc dsrc wd2 fuel2).1 e he)
  · intro e he
    rw [scrapeAllCategories] at he
    by_cases hc : cats = []
    · rw [if_pos hc] at he
      simp [CatsState.init] at he
    · rw [if_neg hc] at he
      exact lt_of_stop_read stopAt mono t0 e.1 hstop
        ((scrapeAllCategoriesBody_good stopAt cats csrc dsrc wd2 fuel2).2 e he)
  · rw [scrapeAllCategories]
    by_cases hc : cats = []
    · rw [if_pos hc]
      simp [CatsState.init]
    · rw [if_neg hc]
      exact (scrapeAllCategoriesBody_inv stopAt cats csrc dsrc wd2 fuel2).1

/-- C6 (witness): a concrete monotone flag set from the third read onward,
on concrete sources, admits no request at or after read 2 and keeps the
delivered keys in the result set. -/
theorem claimC6_witness :
    (∀ e ∈ (pepitesScrape (fun t => decide (2 ≤ t))
        (fun _ => some [⟨"a", "", "", "", 0, "", "", "", "", ""⟩])
        (fun _ => ⟨"", "", "", "", ""⟩) 0 false 9).pagesRequested, e.1 < 2) ∧
    (∀ e ∈ (scrapeAllCategories (fun t => decide (2 ≤ t)) ["saas", "b2b"]
        (fun _ _ => some [⟨"a", "", "", "", 0, "", "", "", "", ""⟩])
        (fun _ => ⟨"", "", "", "", ""⟩) false 9).pagesRequested, e.1 < 2) := by
  have h := claimC6 (fun t => decide (2 ≤ t))
    (by intro t h; simp at h ⊢; omega) 2 (by decide)
    (fun _ => some [⟨"a", "", "", "", 0, "", "", "", "", ""⟩])
    (fun _ _ => some [⟨"a", "", "", "", 0, "", "", "", "", ""⟩])
    (fun _ => ⟨"", "", "", "", ""⟩) ["saas", "b2b"] 0 false false 9 9
  exact ⟨h.1, h.2.2.2.1⟩

lemma insertReplace_fst (cats : List (String × CatInfo)) (slug : String) (info : CatInfo) :
    (insertReplace cats slug info).map Prod.fst =
      if (cats.map Prod.fst).contains slug = true then cats.map Prod.fst
      else cats.map Prod.fst ++ [slug] := by
  unfold insertReplace
  by_cases h : (cats.map Prod.fst).contains slug = true
  · rw [if_pos h, if_pos h, List.map_map]
    apply List.map_congr_left
    intro p _
    by_cases hp : p.1 = slug
    · simp [hp]
    · simp [hp]
  · rw [if_neg h, if_neg h]
    simp

lemma sidebarFold_nodup (sidebar : List (String × String × Option Nat)) :
    ∀ acc : List (String × CatInfo), (acc.map Prod.fst).Nodup →
      ((sidebar.foldl
        (fun cats e => if e.1 ≠ "" then insertReplace cats e.1 ⟨e.2.1, e.2.2⟩ else cats)
        acc).map Prod.fst).Nodup := by
  induction sidebar with
  | nil => intro acc h; exact h
  | cons e rest ih =>
    intro acc h
    rw [List.foldl_cons]
    apply ih
    by_cases he : e.1 ≠ ""
    · rw [if_pos he, insertReplace_fst]
      by_cases hc : (acc.map Prod.fst).contains e.1 = true
      · rw [if_pos hc]
        exact h
      · rw [if_neg hc]
        have hmem : e.1 ∉ acc.map Prod.fst := by simpa using hc
        simp [List.nodup_append, h, hmem]
    · rw [if_neg he]
      exact h

lemma sidebarPhase_nodup (sidebar : List (String × String × Option Nat)) :
    ((sidebarPhase sidebar).map Prod.fst).Nodup := by
  unfold sidebarPhase
  exact sidebarFold_nodup sidebar [] (by simp)

lemma tagInsert_spec (cats : List (String × CatInfo)) (e : String × String) :
    (((cats.map Prod.fst).Nodup) → ((tagInsert cats e).map Prod.fst).Nodup) ∧
    (∀ p, p ∈ cats → p ∈ tagInsert cats e) ∧
    (∀ p, p ∈ tagInsert cats e → p ∈ cats ∨ p.2.count = none) := by
  unfold tagInsert
  by_cases h : e.1 ≠ "" ∧ ¬(cats.map Prod.fst).contains e.1 = true ∧ e.2 ≠ ""
  · rw [if_pos h]
    refine ⟨?_, ?_, ?_⟩
    · intro hnd
      have hmem : e.1 ∉ cats.map Prod.fst := by simpa using h.2.1
      simp [List.nodup_append, hnd, hmem]
    · intro p hp
      exact List.mem_append_left _ hp
    · intro p hp
      rcases List.mem_append.mp hp with hp | hp
      · exact Or.inl hp
      · simp only [List.mem_singleton] at hp
        subst hp
        exact Or.inr rfl
  · rw [if_neg h]
    exact ⟨fun hnd => hnd, fun p hp => hp, fun p hp => Or.inl hp⟩

lemma tagFold_spec (es : List (String × String)) :
    ∀ cats : List (String × CatInfo),
      (((cats.map Prod.fst).Nodup) → (((es.foldl tagInsert cats).map Prod.fst).Nodup)) ∧
      (∀ p, p ∈ cats → p ∈ es.foldl tagInsert cats) ∧
      (∀ p, p ∈ es.foldl tagInsert cats → p ∈ cats ∨ p.2.count = none) := by
  induction es with
  | nil => intro cats; exact ⟨fun h => h, fun p hp => hp, fun p hp => Or.inl hp⟩
  | cons e rest ih =>
    intro cats
    rw [List.foldl_cons]
    have h1 := tagInsert_spec cats e
    have h2 := ih (tagInsert cats e)
    refine ⟨fun hnd => h2.1 (h1.1 hnd), fun p hp => h2.2.1 p (h1.2.1 p hp), ?_⟩
    intro p hp
    rcases h2.2.2 p hp with hp' | hp'
    · exact h1.2.2 p hp'
    · exact Or.inr hp'

lemma homeFold_spec (pgs : List (List (String × String))) :
    ∀ cats : List (String × CatInfo),
      (((cats.map Prod.fst).Nodup) →
        (((pgs.foldl (fun cats pg => pg.foldl tagInsert cats) cats).map Prod.fst).Nodup)) ∧
      (∀ p, p ∈ cats → p ∈ pgs.foldl (fun cats pg => pg.foldl tagInsert cats) cats) ∧
      (∀ p, p ∈ pgs.foldl (fun cats pg => pg.foldl tagInsert cats) cats →
        p ∈ cats ∨ p.2.count = none) := by
  induction pgs with
  | nil => intro cats; exact ⟨fun h => h, fun p hp => hp, fun p hp => Or.inl hp⟩
  | cons pg rest ih =>
    intro cats
    rw [List.foldl_cons]
    have h1 := tagFold_spec pg cats
    have h2 := ih (pg.foldl tagInsert cats)
    refine ⟨fun hnd => h2.1 (h1.1 hnd), fun p hp => h2.2.1 p (h1.2.1 p hp), ?_⟩
    intro p hp
    rcases h2.2.2 p hp with hp' | hp'
    · exact h1.2.2 p hp'
    · exact Or.inr hp'

/-- C8: `fetch_categories` returns a mapping sorted alphabetically by
display name (case-insensitive, pairwise on lowercased names) with
pairwise distinct slugs; every entry of the authoritative sidebar phase
survives unchanged into the result (opportunistic tag entries never
overwrite it), and every entry not coming from the sidebar phase is an
opportunistic one carrying `count = none`. -/
theorem claimC8 (sidebar : List (String × String × Option Nat))
    (pageTags : List (String × String)) (homeTags : List (List (String × String))) :
    List.Pairwise (fun a b : String × CatInfo => a.2.name.toLower ≤ b.2.name.toLower)
      (fetch_categories sidebar pageTags homeTags) ∧
    ((fetch_categories sidebar pageTags homeTags).map Prod.fst).Nodup ∧
    (∀ p, p ∈ sidebarPhase sidebar → p ∈ fetch_categories sidebar pageTags homeTags) ∧
    (∀ p, p ∈ fetch_categories sidebar pageTags homeTags →
      p ∈ sidebarPhase sidebar ∨ p.2.count = none) := by
  unfold fetch_categories
  dsimp only
  have hperm : List.Perm
      ((homeTags.foldl (fun cats pg => pg.foldl tagInsert cats)
        (pageTags.foldl tagInsert (sidebarPhase sidebar))).mergeSort
        (fun a b => a.2.name.toLower ≤ b.2.name.toLower))
      (homeTags.foldl (fun cats pg => pg.foldl tagInsert cats)
        (pageTags.foldl tagInsert (sidebarPhase sidebar))) :=
    List.mergeSort_perm _ _
  have hpage := tagFold_spec pageTags (sidebarPhase sidebar)
  have hhome := homeFold_spec homeTags (pageTags.foldl tagInsert (sidebarPhase sidebar))
  refine ⟨?_, ?_, ?_, ?_⟩
  · have hs := @List.sorted_mergeSort (String × CatInfo)
      (fun a b : String × CatInfo => a.2.name.toLower ≤ b.2.name.toLower)
      (fun a b c hab hbc => by
        simp only [decide_eq_true_eq] at hab hbc ⊢
        exact le_trans hab hbc)
      (fun a b => by
        simp only [Bool.or_eq_true, decide_eq_true_eq]
        exact le_total a.2.name.toLower b.2.name.toLower)
      (homeTags.foldl (fun cats pg => pg.foldl tagInsert cats)
        (pageTags.foldl tagInsert (sidebarPhase sidebar)))
    exact hs.imp (fun h => by simpa using h)
  · exact ((hperm.map Prod.fst).nodup_iff).mpr
      (hhome.1 (hpage.1 (sidebarPhase_nodup sidebar)))
  · intro p hp
    exact (hperm.mem_iff).mpr (hhome.2.1 p (hpage.2.1 p hp))
  · intro p hp
    rcases hhome.2.2 p ((hperm.mem_iff).mp hp) with hp' | hp'
    · exact hpage.2.2 p hp'
    · exact Or.inr hp'

/-- C8 (witness): in the scenario of the claim — sidebar entry
`("saas", "SaaS", 42)` and a duplicate opportunistic `"saas"` tag — the
merged mapping keeps the authoritative entry with `count = 42`. -/
theorem claimC8_witness :
    ("saas", (⟨"SaaS", some 42⟩ : CatInfo)) ∈
      fetch_categories [("saas", "SaaS", some 42)] [("saas", "SaaS")] [] :=
  (claimC8 [("saas", "SaaS", some 42)] [("saas", "SaaS")] []).2.2.1
    ("saas", ⟨"SaaS", some 42⟩) (by decide)
